import Mathlib

/-!
Verification of the bashlog workspace manager and session launcher.

Shallow embedding of the two Go programs of the `bashlog` repository:

* the workspace registry tool (`list`, `create`, `delete`, `view`, `stats`,
  `history`) — file `src/unnamed/part_000`;
* the session launcher (`setupConfig`, RC file, shell launch) — file
  `src/cmd/bashlog/main.go`.

File contents (history logs, config records) are modelled at the character
level (`GoStr := List Char`), so that `strings.TrimSpace`, `strings.Split`
and `strings.ToLower` can be embedded faithfully.  Go `int` values are
modelled as `Int`; Go byte lengths of UTF-8 strings are modelled by summing
per-character UTF-8 encoded lengths.  Filesystem state is modelled as an
explicit record of directory paths and file contents; `os.Exit`/stream
choices are recorded as explicit outcome values.
-/

namespace Bashlog

/-- Go string contents, character by character (runes). -/
abbrev GoStr := List Char

/-- Whitespace test used by `strings.TrimSpace` (`unicode.IsSpace`),
restricted to the ASCII whitespace characters. -/
def isSpaceGo (c : Char) : Bool :=
  c = ' ' || c = '\t' || c = '\n' || c = '\r' ||
  c = Char.ofNat 11 || c = Char.ofNat 12

/-- Drop leading whitespace (left half of `strings.TrimSpace`). -/
def trimLeftGo (s : GoStr) : GoStr := s.dropWhile isSpaceGo

/-- Drop trailing whitespace (right half of `strings.TrimSpace`). -/
def trimRightGo (s : GoStr) : GoStr := ((s.reverse).dropWhile isSpaceGo).reverse

/-- `strings.TrimSpace`: drop all leading and trailing whitespace. -/
def trimSpaceGo (s : GoStr) : GoStr := trimLeftGo (trimRightGo s)

/-- `strings.Split(s, sep)` for a single-character separator: the list of
substrings between occurrences of `sep`; never empty. -/
def splitOnCh (sep : Char) : GoStr → List GoStr
  | [] => [[]]
  | c :: rest =>
    let r := splitOnCh sep rest
    if c = sep then [] :: r
    else
      match r with
      | [] => [[c]]
      | h :: t => (c :: h) :: t

/-- Number of bytes of the UTF-8 encoding of one rune; Go `len(string)`
counts bytes, not runes. -/
def utf8Len (c : Char) : Nat :=
  if c.toNat < 0x80 then 1
  else if c.toNat < 0x800 then 2
  else if c.toNat < 0x10000 then 3
  else 4

/-- Go `len(s)` on a string: total UTF-8 byte count. -/
def goLen (s : GoStr) : Nat := (s.map utf8Len).sum

/-- The per-rune test of `isValidName`: ASCII letter, digit, hyphen or
underscore (`ch >= 'a' && ch <= 'z' || ...` in the source). -/
def validChar (c : Char) : Bool :=
  ('a'.toNat ≤ c.toNat && c.toNat ≤ 'z'.toNat) ||
  ('A'.toNat ≤ c.toNat && c.toNat ≤ 'Z'.toNat) ||
  ('0'.toNat ≤ c.toNat && c.toNat ≤ '9'.toNat) ||
  c.toNat = '-'.toNat || c.toNat = '_'.toNat

/-- `isValidName` from the registry tool: byte length between 1 and 255 and
every rune in `[A-Za-z0-9_-]`. -/
def isValidName (name : GoStr) : Bool :=
  if goLen name = 0 ∨ 255 < goLen name then false
  else name.all validChar

/-- ASCII case folding of one rune, as `strings.ToLower` does on ASCII. -/
def toLowerChar (c : Char) : Char :=
  if 'A'.toNat ≤ c.toNat && c.toNat ≤ 'Z'.toNat then Char.ofNat (c.toNat + 32) else c

/-- `strings.ToLower` on a string. -/
def toLowerGo (s : GoStr) : GoStr := s.map toLowerChar

/-- `filepath.Join(base, name)` for a base without trailing separator. -/
def joinPath (base name : GoStr) : GoStr := base ++ '/' :: name

/-- Filesystem state visible to the registry tool: the set of directory
paths and the regular files (path, contents). -/
structure FS where
  dirs : List GoStr
  files : List (GoStr × GoStr)
deriving DecidableEq

/-- `os.Stat(p)` succeeding: some entry (directory or file) lives at `p`. -/
def statExists (fs : FS) (p : GoStr) : Bool :=
  fs.dirs.any (fun d => d = p) || fs.files.any (fun f => f.1 = p)

/-- Outcome of `handleCreate` (each failure branch calls `os.Exit(1)`). -/
inductive CreateResult where
  | invalidName
  | alreadyExists
  | created
deriving DecidableEq

/-- Config record written by `handleCreate`:
`name=<name>\ncreated=<now>\ncommands=0\n`. -/
def configContent (name now : GoStr) : GoStr :=
  "name=".toList ++ name ++ "\ncreated=".toList ++ now ++ "\ncommands=0\n".toList

/-- `handleCreate` after argument extraction: validate the name, test for an
existing entry at the workspace path, then create the directory, the config
file and the empty history file.  (Creation of missing parent directories by
`os.MkdirAll` and I/O failures of the always-succeeding model filesystem are
elided; no claim depends on them.) -/
def handleCreate (fs : FS) (basePath name now : GoStr) : CreateResult × FS :=
  if !isValidName name then (.invalidName, fs)
  else
    let wsPath := joinPath basePath name
    if statExists fs wsPath then (.alreadyExists, fs)
    else
      (.created,
        { dirs := wsPath :: fs.dirs
          files := (joinPath wsPath "config.txt".toList, configContent name now) ::
                   (joinPath wsPath "history.log".toList, []) :: fs.files })

/-- Outcome of `handleDelete`. -/
inductive DeleteResult where
  | notFound
  | cancelled
  | deleted
deriving DecidableEq

/-- Process exit status of each `handleDelete` outcome: `notFound` calls
`os.Exit(1)`; the other two return to `main`, which exits 0. -/
def deleteExitCode : DeleteResult → Nat
  | .notFound => 1
  | .cancelled => 0
  | .deleted => 0

/-- Does the character list `s` begin with `pre`? -/
def beginsWith : GoStr → GoStr → Bool
  | [], _ => true
  | _ :: _, [] => false
  | a :: pre, b :: s => a = b && beginsWith pre s

/-- Is `p` equal to `root` or strictly below it?  (`os.RemoveAll(root)`
removes exactly these paths.) -/
def underPath (root p : GoStr) : Bool :=
  p = root || beginsWith (root ++ ['/']) p

/-- `os.RemoveAll(root)` on the model filesystem. -/
def removeAll (fs : FS) (root : GoStr) : FS :=
  { dirs := fs.dirs.filter (fun d => !underPath root d)
    files := fs.files.filter (fun f => !underPath root f.1) }

/-- `handleDelete` after argument extraction.  `input` is the line returned
by `reader.ReadString('\n')` (with its newline, or a partial line at end of
input); it is lowercased and whitespace-trimmed, and only `"yes"` and `"y"`
confirm the deletion. -/
def handleDelete (fs : FS) (basePath name input : GoStr) : DeleteResult × FS :=
  let wsPath := joinPath basePath name
  if !statExists fs wsPath then (.notFound, fs)
  else
    let response := trimSpaceGo (toLowerGo input)
    if response ≠ "yes".toList ∧ response ≠ "y".toList then (.cancelled, fs)
    else (.deleted, removeAll fs wsPath)

/-- The recent-history section of `handleView`, applied to the bytes of the
history file: trim the whole file, split on newlines, and when the first
line is non-empty show the non-empty lines among the last 5 lines.  `none`
means the section is not printed at all.  (Go computes `start := count - 5;
if start < 0 { start = 0 }`; truncated `Nat` subtraction models this.) -/
def viewRecent (content : GoStr) : Option (List GoStr) :=
  let lines := splitOnCh '\n' (trimSpaceGo content)
  let count := lines.length
  if 0 < count ∧ lines.headD [] ≠ [] then
    some ((lines.drop (count - 5)).filter (fun l => l ≠ []))
  else none

/-- Go `int` (int64 on a 64-bit platform) wrap-around: the representative
of `x` modulo `2^64` in `[-2^63, 2^63)`.  Go integer arithmetic that
overflows wraps this way. -/
def wrap64 (x : Int) : Int :=
  (x + 9223372036854775808) % 18446744073709551616 - 9223372036854775808

/-- Outcome of `handleHistory` on an existing workspace. -/
inductive HistoryOutcome where
  | noHistory
  | panicOutOfRange
  | window (w : List GoStr)
deriving DecidableEq

/-- `handleHistory` after the existence check: `content` are the bytes of
the history file and `n` the requested line count (a Go `int`).  An empty
file reports "no history"; otherwise the file is trimmed and split, and the
slice `historyLines[start:]` is taken with `start := len - n` computed in
wrapping int64 arithmetic and clamped below at 0 — a slice whose lower
bound exceeds `len` panics at run time, recorded as `panicOutOfRange`. -/
def handleHistory (content : GoStr) (n : Int) : HistoryOutcome :=
  if content = [] then .noHistory
  else
    let historyLines := splitOnCh '\n' (trimSpaceGo content)
    let count : Int := historyLines.length
    let start0 := wrap64 (count - n)
    let start := if start0 < 0 then 0 else start0
    if start ≤ count then .window (historyLines.drop start.toNat)
    else .panicOutOfRange

/-- The requested history count: `lines := 20` then overwritten by a parsed
second argument when present. -/
def resolveCount (arg : Option Int) : Int :=
  match arg with
  | none => 20
  | some k => k

/-- The lines actually printed from a history window: `range` over the
slice skips empty lines. -/
def printedLines (w : List GoStr) : List GoStr := w.filter (fun l => l ≠ [])

/-- In-memory workspace record built by `getWorkspaces`: `CreatedAt` is a
`time.Time` modelled as an integer instant, `CommandCount` a Go `int`. -/
structure Workspace where
  name : String
  createdAt : Int
  path : String
  commandCount : Int
deriving DecidableEq

/-- Aggregates computed by `handleStats` over a non-empty workspace list. -/
structure Stats where
  totalWorkspaces : Nat
  totalCommands : Int
  averageCommands : ℚ
  oldest : Workspace
  newest : Workspace
deriving DecidableEq

/-- The aggregation loop of `handleStats`: starting from `workspaces[0]` as
both oldest and newest, fold over the whole list summing `CommandCount`,
taking a strictly earlier `CreatedAt` as the new oldest
(`ws.CreatedAt.Before(...)`) and a strictly later one as the new newest
(`ws.CreatedAt.After(...)`); each `totalCommands += ws.CommandCount` step
wraps in int64; the average is the float division
`totalCommands / len(workspaces)`, modelled exactly in `ℚ`. -/
def computeStats (w0 : Workspace) (workspaces : List Workspace) : Stats :=
  let totalCommands :=
    workspaces.foldl (fun acc ws => wrap64 (acc + ws.commandCount)) 0
  let oldest := workspaces.foldl
    (fun o ws => if ws.createdAt < o.createdAt then ws else o) w0
  let newest := workspaces.foldl
    (fun nw ws => if nw.createdAt < ws.createdAt then ws else nw) w0
  { totalWorkspaces := workspaces.length
    totalCommands := totalCommands
    averageCommands := (totalCommands : ℚ) / (workspaces.length : ℚ)
    oldest := oldest
    newest := newest }

/-- Which output stream a message goes to. -/
inductive Stream where
  | stdout
  | stderr
deriving DecidableEq

/-- Outcome of `handleStats` on a successfully listed store: with zero
workspaces it prints one line to a stream and the process later exits with
the recorded status; otherwise it prints the statistics report and exits 0. -/
inductive StatsOutcome where
  | message (lines : List String) (s : Stream) (exitCode : Nat)
  | report (s : Stats) (exitCode : Nat)
deriving DecidableEq

/-- `handleStats` after `getWorkspaces` succeeded: `fmt.Println("No
workspaces found")` on stdout and a plain `return` (exit status 0) when the
list is empty, the statistics report otherwise. -/
def handleStats (workspaces : List Workspace) : StatsOutcome :=
  match workspaces with
  | [] => .message ["No workspaces found"] .stdout 0
  | w0 :: _ => .report (computeStats w0 workspaces) 0

/-- Session configuration of the launcher (`Config` in
`src/cmd/bashlog/main.go`). -/
structure Config where
  timezone : String
  date : String
  time : String
  logDir : String
  rcFile : String
  sessionID : String
deriving DecidableEq

/-- Failure of `setupConfig`; only `time.LoadLocation` can fail in the
model (`MkdirAll` and `UserHomeDir` always succeed on the model
filesystem). -/
inductive SetupError where
  | invalidTimezone
deriving DecidableEq

/-- `setupConfig` from the launcher.  `knownZone` stands for the success of
`time.LoadLocation`; `nowDateIn tz` / `nowTimeIn tz` stand for
`time.Now().In(loc)` rendered as `2006-01-02` / `15:04:05`.  The timezone
defaults to `"UTC"`; `LoadLocation` is consulted only inside the two
branches that fill in a missing date or time; the session id is
`session_<date>_<time>`; the log directory is
`<home>/.bashlog/logs/<date>` and the RC file `<home>/.bashlog/bashlog.rc`. -/
def setupConfig (knownZone : String → Bool) (nowDateIn nowTimeIn : String → String)
    (homeDir : String) (tz date timeStr : String) : Except SetupError Config :=
  let timezone := if tz = "" then "UTC" else tz
  let dateR : Except SetupError String :=
    if date = "" then
      if knownZone timezone then .ok (nowDateIn timezone)
      else .error .invalidTimezone
    else .ok date
  match dateR with
  | .error e => .error e
  | .ok date =>
    let timeR : Except SetupError String :=
      if timeStr = "" then
        if knownZone timezone then .ok (nowTimeIn timezone)
        else .error .invalidTimezone
      else .ok timeStr
    match timeR with
    | .error e => .error e
    | .ok time =>
      .ok
        { timezone := timezone
          date := date
          time := time
          logDir := homeDir ++ "/.bashlog/logs/" ++ date
          rcFile := homeDir ++ "/.bashlog/bashlog.rc"
          sessionID := "session_" ++ date ++ "_" ++ time }

/-- Modelled from the spec (for comparison with `handleHistory`, not from
the source): "reads the full history file, drops a single trailing empty
artifact from a trailing newline, and returns the last `n` lines in
original order; if the file has fewer than `n` lines, returns all of
them". -/
def specHistoryTail (content : GoStr) (n : Nat) : List GoStr :=
  let lines := splitOnCh '\n' content
  let lines := if lines.getLastD [] = [] then lines.dropLast else lines
  lines.drop (lines.length - n)

/-! Helper lemmas -/

theorem splitOnCh_ne_nil (sep : Char) (s : GoStr) : splitOnCh sep s ≠ [] := by
  induction s with
  | nil => simp [splitOnCh]
  | cons c rest ih =>
    simp only [splitOnCh]
    split
    · simp
    · cases h : splitOnCh sep rest with
      | nil => simp
      | cons a t => simp [h]

theorem length_splitOnCh_pos (sep : Char) (s : GoStr) : 0 < (splitOnCh sep s).length :=
  List.length_pos.mpr (splitOnCh_ne_nil sep s)

theorem splitOnCh_cons_of_ne {sep c : Char} (rest : GoStr) (hc : c ≠ sep) :
    ∃ h t, splitOnCh sep (c :: rest) = (c :: h) :: t := by
  simp only [splitOnCh]
  rw [if_neg hc]
  cases h : splitOnCh sep rest with
  | nil => exact absurd h (splitOnCh_ne_nil sep rest)
  | cons a t => exact ⟨a, t, rfl⟩

theorem trimSpaceGo_head_not_space {s : GoStr} {c : Char} {t : GoStr}
    (h : trimSpaceGo s = c :: t) : isSpaceGo c = false := by
  have := List.head?_dropWhile_not isSpaceGo (trimRightGo s)
  unfold trimSpaceGo trimLeftGo at h
  rw [h] at this
  simpa using this

theorem wrap64_wrap_add (a b : Int) : wrap64 (wrap64 a + b) = wrap64 (a + b) := by
  unfold wrap64
  omega

theorem foldl_wrapAdd_commandCount (l : List Workspace) (a : Int) :
    l.foldl (fun acc ws => wrap64 (acc + ws.commandCount)) (wrap64 a)
      = wrap64 (a + (l.map Workspace.commandCount).sum) := by
  induction l generalizing a with
  | nil => simp
  | cons w t ih =>
    simp only [List.foldl_cons, List.map_cons, List.sum_cons]
    rw [wrap64_wrap_add, ih (a + w.commandCount), Int.add_assoc]

/-! Claims -/

/-- C2 (counterexample): `stats` over a store with zero workspaces does not
print to the error stream and does not exit non-zero: it prints the single
line `No workspaces found` to standard output and the exit status is 0,
while the claim asserts the error stream and a non-zero status. -/
theorem handleStats_empty_cex :
    handleStats [] = .message ["No workspaces found"] .stdout 0 ∧
      Stream.stdout ≠ Stream.stderr :=
  ⟨rfl, by decide⟩

/-- C2 (amended): when `stats` is invoked over a store with zero
workspaces, the `Empty` condition is reported as a friendly message — one
line `No workspaces found` on standard output — and the command exits with
status zero (it is not handled as a terminal error); over a non-empty store
the statistics report is produced, also with exit status zero. -/
theorem handleStats_empty_friendly :
    handleStats [] = .message ["No workspaces found"] .stdout 0 ∧
      ∀ w0 rest, ∃ s, handleStats (w0 :: rest) = .report s 0 :=
  ⟨rfl, fun w0 rest => ⟨computeStats w0 (w0 :: rest), rfl⟩⟩

/-- C5 (counterexample): the negative count `n = -9223372036854775808`
(MinInt64, accepted by `Sscanf`) does not panic on the non-empty history
`"a\n"`: the int64 subtraction `len - n` overflows and wraps negative, the
`start < 0` clamp fires, and the whole history is printed — refuting the
claim that every negative count panics. -/
theorem handleHistory_min_int_cex :
    (-9223372036854775808 : Int) < 0 ∧ ("a\n".toList : GoStr) ≠ [] ∧
      handleHistory "a\n".toList (-9223372036854775808)
        = .window ["a".toList] := by
  refine ⟨by decide, by decide, by decide⟩

/-- C5 (amended): on an existing workspace whose history file is non-empty,
a negative requested count `n` (in the int64 range) makes the slice lower
bound `len(historyLines) - n` exceed `len(historyLines)`, and the slice
expression `historyLines[start:]` panics with an out-of-range index —
provided the int64 subtraction `len - n` does not overflow (stays at most
MaxInt64); when it does overflow, as at `n` = MinInt64, the wrapped lower
bound is negative, is clamped to 0, and the entire history is returned
without panic. -/
theorem handleHistory_negative_wrap (content : GoStr) (n : Int)
    (hc : content ≠ []) (hn : n < 0)
    (hnlo : -9223372036854775808 ≤ n)
    (hcnt : ((splitOnCh '\n' (trimSpaceGo content)).length : Int)
      ≤ 9223372036854775807) :
    (((splitOnCh '\n' (trimSpaceGo content)).length : Int) - n
        ≤ 9223372036854775807 →
      ((splitOnCh '\n' (trimSpaceGo content)).length : Int)
          < ((splitOnCh '\n' (trimSpaceGo content)).length : Int) - n ∧
        handleHistory content n = .panicOutOfRange) ∧
    (9223372036854775807
        < ((splitOnCh '\n' (trimSpaceGo content)).length : Int) - n →
      handleHistory content n
        = .window (splitOnCh '\n' (trimSpaceGo content))) := by
  have h0 : (0 : Int) ≤ ((splitOnCh '\n' (trimSpaceGo content)).length : Int) :=
    Int.natCast_nonneg _
  constructor
  · intro hfit
    refine ⟨by omega, ?_⟩
    simp only [handleHistory, if_neg hc]
    have hw : wrap64 (((splitOnCh '\n' (trimSpaceGo content)).length : Int) - n)
        = ((splitOnCh '\n' (trimSpaceGo content)).length : Int) - n := by
      unfold wrap64
      omega
    rw [hw]
    rw [if_neg (by omega :
      ¬(((splitOnCh '\n' (trimSpaceGo content)).length : Int) - n < 0))]
    rw [if_neg (by omega :
      ¬(((splitOnCh '\n' (trimSpaceGo content)).length : Int) - n
          ≤ ((splitOnCh '\n' (trimSpaceGo content)).length : Int)))]
  · intro hbig
    simp only [handleHistory, if_neg hc]
    have hw : wrap64 (((splitOnCh '\n' (trimSpaceGo content)).length : Int) - n)
        = ((splitOnCh '\n' (trimSpaceGo content)).length : Int) - n
          - 18446744073709551616 := by
      unfold wrap64
      omega
    rw [hw]
    rw [if_pos (by omega :
      ((splitOnCh '\n' (trimSpaceGo content)).length : Int) - n
          - 18446744073709551616 < 0)]
    rw [if_pos h0]
    rfl

/-- C5 (witness): the history file `"a\n"` with requested count `-1` (no
int64 overflow in `1 - (-1)`) panics out of range. -/
theorem handleHistory_negative_wrap_witness :
    (("a\n".toList : GoStr) ≠ [] ∧ (-1 : Int) < 0) ∧
      handleHistory "a\n".toList (-1) = .panicOutOfRange :=
  ⟨⟨by decide, by decide⟩,
    ((handleHistory_negative_wrap "a\n".toList (-1) (by decide) (by decide)
      (by decide) (by decide)).1 (by decide)).2⟩

/-- C6 (counterexample): the name validity check precedes the existence
check, so for the name `"a b"` (invalid: it contains a space) whose
workspace directory `base/a b` already exists, `create` fails with
`InvalidName`, not with `AlreadyExists`. -/
theorem handleCreate_invalid_existing_cex :
    statExists ⟨[joinPath "base".toList "a b".toList], []⟩
        (joinPath "base".toList "a b".toList) = true ∧
      handleCreate ⟨[joinPath "base".toList "a b".toList], []⟩
          "base".toList "a b".toList "now".toList
        = (.invalidName, ⟨[joinPath "base".toList "a b".toList], []⟩) ∧
      CreateResult.invalidName ≠ CreateResult.alreadyExists := by
  refine ⟨by decide, by decide, by decide⟩

/-- C6 (amended): for every name such that some entry already exists at the
workspace path, `create` fails and performs no filesystem mutation — with
`AlreadyExists` when the name is valid, and with `InvalidName` (the
validity check runs first) when it is not; in both cases the filesystem
state is returned unchanged, so no directory is created and no config or
history file is written or truncated. -/
theorem handleCreate_existing_no_mutation (fs : FS) (basePath name now : GoStr)
    (h : statExists fs (joinPath basePath name) = true) :
    handleCreate fs basePath name now
      = ((if isValidName name then .alreadyExists else .invalidName), fs) := by
  unfold handleCreate
  cases hv : isValidName name with
  | false => simp [hv]
  | true => simp [hv, h]

/-- C6 (witness): creating the valid name `"ws"` over a store that already
holds the directory `base/ws` fails with `AlreadyExists` and leaves the
filesystem unchanged. -/
theorem handleCreate_existing_no_mutation_witness :
    statExists ⟨[joinPath "base".toList "ws".toList], []⟩
        (joinPath "base".toList "ws".toList) = true ∧
      handleCreate ⟨[joinPath "base".toList "ws".toList], []⟩
          "base".toList "ws".toList "now".toList
        = (.alreadyExists, ⟨[joinPath "base".toList "ws".toList], []⟩) := by
  refine ⟨by decide, ?_⟩
  rw [handleCreate_existing_no_mutation _ _ _ _ (by decide)]
  decide

/-- C7 (counterexample): over the two workspaces with command counts
MaxInt64 = 9223372036854775807 (parseable from a config file) and 1, the
running `totalCommands +=` wraps in int64: the program reports
`total_commands = -9223372036854775808`, not the exact sum
`9223372036854775808` — refuting the universal claim that `total_commands`
equals the sum of the command counts. -/
theorem handleStats_overflow_cex :
    (([⟨"a", 1, "pa", 9223372036854775807⟩, ⟨"b", 2, "pb", 1⟩] :
        List Workspace).map Workspace.commandCount).sum
      = 9223372036854775808 ∧
    (computeStats ⟨"a", 1, "pa", 9223372036854775807⟩
        [⟨"a", 1, "pa", 9223372036854775807⟩, ⟨"b", 2, "pb", 1⟩]).totalCommands
      = -9223372036854775808 ∧
    handleStats [⟨"a", 1, "pa", 9223372036854775807⟩, ⟨"b", 2, "pb", 1⟩]
      = .report (computeStats ⟨"a", 1, "pa", 9223372036854775807⟩
          [⟨"a", 1, "pa", 9223372036854775807⟩, ⟨"b", 2, "pb", 1⟩]) 0 ∧
    (-9223372036854775808 : Int) ≠ 9223372036854775808 := by
  refine ⟨by decide, by decide, rfl, by decide⟩

/-- C7 (amended): over a non-empty store, `stats` reports
`total_workspaces` equal to the number of workspaces, `total_commands`
equal to the int64-wrapping sum of their command counts — which equals the
exact sum whenever that sum fits in int64 — and `average_commands` equal to
the division `total_commands / total_workspaces`, all with exit status 0;
over three workspaces with command counts 2, 4, 6 it reports
`total_commands = 12` and `average_commands = 4.0`; and the empty store
takes the message branch, so no average is ever computed for it. -/
theorem handleStats_aggregates_wrap :
    (∀ (w0 : Workspace) (rest : List Workspace),
      ∃ s, handleStats (w0 :: rest) = .report s 0 ∧
        s.totalWorkspaces = (w0 :: rest).length ∧
        s.totalCommands = wrap64 (((w0 :: rest).map Workspace.commandCount).sum) ∧
        (-9223372036854775808 ≤ ((w0 :: rest).map Workspace.commandCount).sum →
          ((w0 :: rest).map Workspace.commandCount).sum ≤ 9223372036854775807 →
          s.totalCommands = ((w0 :: rest).map Workspace.commandCount).sum) ∧
        s.averageCommands = (s.totalCommands : ℚ) / (s.totalWorkspaces : ℚ)) ∧
    (∃ s, handleStats [⟨"a", 1, "pa", 2⟩, ⟨"b", 2, "pb", 4⟩, ⟨"c", 3, "pc", 6⟩]
        = .report s 0 ∧ s.totalCommands = 12 ∧ s.averageCommands = 4) ∧
    handleStats [] = .message ["No workspaces found"] .stdout 0 := by
  refine ⟨fun w0 rest => ?_, ?_, rfl⟩
  · have hwrap : (computeStats w0 (w0 :: rest)).totalCommands
        = wrap64 (((w0 :: rest).map Workspace.commandCount).sum) := by
      show (w0 :: rest).foldl (fun acc ws => wrap64 (acc + ws.commandCount)) 0 = _
      have h := foldl_wrapAdd_commandCount (w0 :: rest) 0
      rw [show wrap64 (0 : Int) = 0 from by decide] at h
      rw [h, Int.zero_add]
    refine ⟨computeStats w0 (w0 :: rest), rfl, rfl, hwrap, ?_, rfl⟩
    intro h1 h2
    rw [hwrap]
    unfold wrap64
    omega
  · refine ⟨computeStats ⟨"a", 1, "pa", 2⟩
      [⟨"a", 1, "pa", 2⟩, ⟨"b", 2, "pb", 4⟩, ⟨"c", 3, "pc", 6⟩], rfl, by decide, ?_⟩
    show (((computeStats ⟨"a", 1, "pa", 2⟩
        [⟨"a", 1, "pa", 2⟩, ⟨"b", 2, "pb", 4⟩,
          ⟨"c", 3, "pc", 6⟩]).totalCommands : ℚ)) / ((3 : Nat) : ℚ) = 4
    rw [show (computeStats ⟨"a", 1, "pa", 2⟩
        [⟨"a", 1, "pa", 2⟩, ⟨"b", 2, "pb", 4⟩,
          ⟨"c", 3, "pc", 6⟩]).totalCommands = 12 from by decide]
    norm_num

/-- C7 (witness): over the store with command counts 2, 4, 6 — whose exact
sum 12 fits in int64 — the reported total equals the exact sum. -/
theorem handleStats_aggregates_wrap_witness :
    (computeStats ⟨"a", 1, "pa", 2⟩
        [⟨"a", 1, "pa", 2⟩, ⟨"b", 2, "pb", 4⟩, ⟨"c", 3, "pc", 6⟩]).totalCommands
      = (([⟨"a", 1, "pa", 2⟩, ⟨"b", 2, "pb", 4⟩, ⟨"c", 3, "pc", 6⟩] :
          List Workspace).map Workspace.commandCount).sum := by
  obtain ⟨s, hs, -, -, hin, -⟩ := handleStats_aggregates_wrap.1
    ⟨"a", 1, "pa", 2⟩ [⟨"b", 2, "pb", 4⟩, ⟨"c", 3, "pc", 6⟩]
  have h12 := hin (by decide) (by decide)
  have hid : StatsOutcome.report (computeStats ⟨"a", 1, "pa", 2⟩
      [⟨"a", 1, "pa", 2⟩, ⟨"b", 2, "pb", 4⟩, ⟨"c", 3, "pc", 6⟩]) 0
      = .report s 0 := by
    rw [← hs]
    rfl
  injection hid with hid1 hid2
  rw [hid1]
  exact h12

/-- C10: for every existing workspace, the delete confirmation read from
standard input is lowercased and whitespace-trimmed, and the deletion is
performed exactly when the result is `"yes"` or `"y"` (so the answers are
case-insensitive); every other answer — including an empty line or the
empty string returned at end of input — cancels, leaves the filesystem
(and hence the workspace directory) unchanged, and exits with status 0. -/
theorem handleDelete_confirmation (fs : FS) (basePath name input : GoStr)
    (h : statExists fs (joinPath basePath name) = true) :
    (trimSpaceGo (toLowerGo input) ≠ "yes".toList ∧
        trimSpaceGo (toLowerGo input) ≠ "y".toList →
      handleDelete fs basePath name input = (.cancelled, fs) ∧
        deleteExitCode .cancelled = 0) ∧
    (trimSpaceGo (toLowerGo input) = "yes".toList ∨
        trimSpaceGo (toLowerGo input) = "y".toList →
      handleDelete fs basePath name input
        = (.deleted, removeAll fs (joinPath basePath name))) := by
  constructor
  · intro hr
    refine ⟨?_, rfl⟩
    unfold handleDelete
    simp only [h, Bool.not_true, Bool.false_eq_true, if_false]
    rw [if_pos ⟨by simpa using hr.1, by simpa using hr.2⟩]
  · intro hr
    unfold handleDelete
    rcases hr with hr | hr <;> simp [h, hr]

/-- C10 (witness): over a store holding `base/ws`, the answer `" YeS \n"`
confirms the deletion, while the empty line `"\n"` cancels it, leaves the
store unchanged and exits 0. -/
theorem handleDelete_confirmation_witness :
    (statExists ⟨[joinPath "base".toList "ws".toList], []⟩
        (joinPath "base".toList "ws".toList) = true) ∧
      handleDelete ⟨[joinPath "base".toList "ws".toList], []⟩
          "base".toList "ws".toList "\n".toList
        = (.cancelled, ⟨[joinPath "base".toList "ws".toList], []⟩) ∧
      handleDelete ⟨[joinPath "base".toList "ws".toList], []⟩
          "base".toList "ws".toList " YeS \n".toList
        = (.deleted, removeAll ⟨[joinPath "base".toList "ws".toList], []⟩
            (joinPath "base".toList "ws".toList)) := by
  refine ⟨by decide, ?_, ?_⟩
  · exact ((handleDelete_confirmation _ _ _ "\n".toList (by decide)).1
      ⟨by decide, by decide⟩).1
  · exact (handleDelete_confirmation _ _ _ " YeS \n".toList (by decide)).2
      (Or.inl (by decide))

/-- A timezone resolver that knows no zone at all (`time.LoadLocation`
failing on every name); used to instantiate claims about unresolvable
timezones. -/
def zoneNever : String → Bool := fun _ => false

/-- Stub renderer for the current date in a zone. -/
def dateStub : String → String := fun _ => "2099-12-31"

/-- Stub renderer for the current time in a zone. -/
def timeStub : String → String := fun _ => "23:59:59"

/-- C1 (counterexample): with timezone `"Bad/Zone"` unresolvable (the
resolver knows no zone) but explicit date `"2024-01-01"` and time
`"12:00:00"`, `setupConfig` succeeds instead of failing with
`InvalidTimezone`: the resolver is consulted only in the branches that fill
in a missing date or time. -/
theorem setupConfig_invalidTimezone_cex :
    zoneNever "Bad/Zone" = false ∧
      setupConfig zoneNever dateStub timeStub "/home/u"
          "Bad/Zone" "2024-01-01" "12:00:00"
        = .ok ⟨"Bad/Zone", "2024-01-01", "12:00:00",
            "/home/u/.bashlog/logs/2024-01-01",
            "/home/u/.bashlog/bashlog.rc",
            "session_2024-01-01_12:00:00"⟩ :=
  ⟨rfl, rfl⟩

/-- C1 (amended): when the caller supplies a timezone string that cannot be
resolved, build fails with `InvalidTimezone` exactly when at least one of
the date and time overrides is left unspecified; when both are supplied
explicitly, the timezone is never resolved and the build succeeds, storing
the unresolvable timezone string verbatim. -/
theorem setupConfig_invalidTimezone_lazy (kz : String → Bool)
    (nd nt : String → String) (home tz d t : String)
    (htz : tz ≠ "") (hbad : kz tz = false) :
    ((d = "" ∨ t = "") →
      setupConfig kz nd nt home tz d t = .error .invalidTimezone) ∧
    (d ≠ "" → t ≠ "" →
      setupConfig kz nd nt home tz d t
        = .ok ⟨tz, d, t, home ++ "/.bashlog/logs/" ++ d,
            home ++ "/.bashlog/bashlog.rc", "session_" ++ d ++ "_" ++ t⟩) := by
  constructor
  · rintro (hd | ht)
    · simp [setupConfig, hd, htz, hbad]
    · by_cases hd : d = ""
      · simp [setupConfig, hd, htz, hbad]
      · simp [setupConfig, hd, ht, htz, hbad]
  · intro hd ht
    simp [setupConfig, hd, ht, htz]

/-- C1 (witness): unresolvable timezone `"Bad/Zone"` with an unspecified
date and explicit time fails with `InvalidTimezone`. -/
theorem setupConfig_invalidTimezone_lazy_witness :
    ("Bad/Zone" ≠ "" ∧ zoneNever "Bad/Zone" = false) ∧
      setupConfig zoneNever dateStub timeStub "/home/u" "Bad/Zone" "" "12:00:00"
        = .error .invalidTimezone :=
  ⟨⟨by decide, rfl⟩,
    (setupConfig_invalidTimezone_lazy zoneNever dateStub timeStub "/home/u"
      "Bad/Zone" "" "12:00:00" (by decide) rfl).1 (Or.inl rfl)⟩

/-- Every successful `setupConfig` result has the session id
`session_<date>_<time>` synthesized from its resolved date and time, and
its log directory is `<home>/.bashlog/logs/<date>`. -/
theorem setupConfig_ok_fields {kz : String → Bool} {nd nt : String → String}
    {home tz d t : String} {c : Config}
    (h : setupConfig kz nd nt home tz d t = .ok c) :
    c.sessionID = "session_" ++ c.date ++ "_" ++ c.time ∧
      c.logDir = home ++ "/.bashlog/logs/" ++ c.date := by
  by_cases hd : d = "" <;> by_cases ht : t = "" <;>
    by_cases hk : kz (if tz = "" then "UTC" else tz) = true <;>
      simp [setupConfig, hd, ht, hk] at h <;>
      (subst h; exact ⟨rfl, rfl⟩)

/-- C8: the session identifier is a deterministic function of the resolved
date and time — every successful build has
`session_id = "session_" ++ date ++ "_" ++ time`, and two successful builds
agreeing on date and time have equal session ids; with explicit timezone
`"UTC"`, date `"2024-01-01"` and time `"12:00:00"` the session id is
`"session_2024-01-01_12:00:00"` and the log directory ends in
`logs/2024-01-01`. -/
theorem setupConfig_session_identity :
    (∀ (kz : String → Bool) (nd nt : String → String) (home tz d t : String)
        (c : Config), setupConfig kz nd nt home tz d t = .ok c →
      c.sessionID = "session_" ++ c.date ++ "_" ++ c.time) ∧
    (∀ (kz₁ : String → Bool) (nd₁ nt₁ : String → String)
        (h₁ tz₁ d₁ t₁ : String) (c₁ : Config)
        (kz₂ : String → Bool) (nd₂ nt₂ : String → String)
        (h₂ tz₂ d₂ t₂ : String) (c₂ : Config),
      setupConfig kz₁ nd₁ nt₁ h₁ tz₁ d₁ t₁ = .ok c₁ →
      setupConfig kz₂ nd₂ nt₂ h₂ tz₂ d₂ t₂ = .ok c₂ →
      c₁.date = c₂.date → c₁.time = c₂.time → c₁.sessionID = c₂.sessionID) ∧
    (∀ (kz : String → Bool) (nd nt : String → String) (home : String)
        (c : Config),
      setupConfig kz nd nt home "UTC" "2024-01-01" "12:00:00" = .ok c →
      c.sessionID = "session_2024-01-01_12:00:00" ∧
        ∃ p, c.logDir = p ++ "logs/2024-01-01") := by
  refine ⟨?_, ?_, ?_⟩
  · intro kz nd nt home tz d t c h
    exact (setupConfig_ok_fields h).1
  · intro kz₁ nd₁ nt₁ h₁ tz₁ d₁ t₁ c₁ kz₂ nd₂ nt₂ h₂ tz₂ d₂ t₂ c₂ e₁ e₂ hd ht
    rw [(setupConfig_ok_fields e₁).1, (setupConfig_ok_fields e₂).1, hd, ht]
  · intro kz nd nt home c h
    have hd : c.date = "2024-01-01" ∧ c.time = "12:00:00" := by
      revert h
      simp [setupConfig]
      intro h
      rw [← h]
      exact ⟨rfl, rfl⟩
    refine ⟨?_, home ++ "/.bashlog/", ?_⟩
    · rw [(setupConfig_ok_fields h).1, hd.1, hd.2]
      decide
    · rw [(setupConfig_ok_fields h).2, hd.1, String.append_assoc,
        String.append_assoc]
      congr 1

/-- C8 (witness): the concrete build with timezone `"UTC"`, date
`"2024-01-01"`, time `"12:00:00"`. -/
theorem setupConfig_session_identity_witness :
    setupConfig zoneNever dateStub timeStub "/home/u"
        "UTC" "2024-01-01" "12:00:00"
      = .ok ⟨"UTC", "2024-01-01", "12:00:00",
          "/home/u/.bashlog/logs/2024-01-01",
          "/home/u/.bashlog/bashlog.rc",
          "session_2024-01-01_12:00:00"⟩ ∧
    "session_2024-01-01_12:00:00" = "session_2024-01-01_12:00:00" ∧
      ∃ p, "/home/u/.bashlog/logs/2024-01-01" = p ++ "logs/2024-01-01" := by
  have h : setupConfig zoneNever dateStub timeStub "/home/u"
      "UTC" "2024-01-01" "12:00:00"
    = .ok ⟨"UTC", "2024-01-01", "12:00:00",
        "/home/u/.bashlog/logs/2024-01-01",
        "/home/u/.bashlog/bashlog.rc",
        "session_2024-01-01_12:00:00"⟩ := rfl
  have h2 := setupConfig_session_identity.2.2 zoneNever dateStub timeStub
    "/home/u" _ h
  exact ⟨h, by rw [← h2.1], h2.2⟩

theorem utf8Len_pos (c : Char) : 1 ≤ utf8Len c := by
  unfold utf8Len
  split
  · exact le_refl 1
  · split
    · omega
    · split <;> omega

theorem length_le_goLen (s : GoStr) : s.length ≤ goLen s := by
  induction s with
  | nil => simp [goLen]
  | cons c t ih =>
    have := utf8Len_pos c
    simp only [goLen, List.map_cons, List.sum_cons, List.length_cons]
    simp only [goLen] at ih
    omega

theorem toNat_lt_of_validChar (c : Char) (h : validChar c = true) :
    c.toNat < 128 := by
  unfold validChar at h
  simp only [Bool.or_eq_true, Bool.and_eq_true, decide_eq_true_eq,
    show 'a'.toNat = 97 from rfl, show 'z'.toNat = 122 from rfl,
    show 'A'.toNat = 65 from rfl, show 'Z'.toNat = 90 from rfl,
    show '0'.toNat = 48 from rfl, show '9'.toNat = 57 from rfl,
    show '-'.toNat = 45 from rfl, show '_'.toNat = 95 from rfl] at h
  omega

theorem utf8Len_of_validChar (c : Char) (h : validChar c = true) :
    utf8Len c = 1 := by
  have := toNat_lt_of_validChar c h
  unfold utf8Len
  rw [if_pos (by omega : c.toNat < 0x80)]

theorem goLen_of_valid (s : GoStr) (h : ∀ c ∈ s, validChar c = true) :
    goLen s = s.length := by
  induction s with
  | nil => simp [goLen]
  | cons c t ih =>
    simp only [goLen, List.map_cons, List.sum_cons, List.length_cons]
    rw [utf8Len_of_validChar c (h c (List.mem_cons_self c t))]
    simp only [goLen] at ih
    rw [ih (fun x hx => h x (List.mem_cons_of_mem c hx))]
    omega

/-- C9: `is_valid_name` rejects the empty string, every string of more than
255 characters, and every string containing a character outside
`[A-Za-z0-9_-]`; it accepts `"my-project_01"` and, generally, every string
of 1 to 255 characters drawn from that set. -/
theorem isValidName_spec :
    isValidName [] = false ∧
    (∀ name : GoStr, 255 < name.length → isValidName name = false) ∧
    (∀ (name : GoStr) (c : Char), c ∈ name → validChar c = false →
      isValidName name = false) ∧
    isValidName "my-project_01".toList = true ∧
    (∀ name : GoStr, 1 ≤ name.length → name.length ≤ 255 →
      (∀ c ∈ name, validChar c = true) → isValidName name = true) := by
  refine ⟨by decide, ?_, ?_, by decide, ?_⟩
  · intro name h
    unfold isValidName
    rw [if_pos (Or.inr (lt_of_lt_of_le h (length_le_goLen name)))]
  · intro name c hc hvc
    unfold isValidName
    split
    · rfl
    · rw [Bool.eq_false_iff]
      intro hall
      rw [List.all_eq_true] at hall
      have := hall c hc
      rw [hvc] at this
      exact Bool.false_ne_true this
  · intro name h1 h255 hall
    unfold isValidName
    rw [if_neg, List.all_eq_true]
    · exact fun c hc => hall c hc
    · rw [goLen_of_valid name hall]
      omega

/-- C9 (witness): a 256-character name is rejected, and a short name drawn
from the allowed character set is accepted. -/
theorem isValidName_spec_witness :
    (255 < (List.replicate 256 'a').length ∧
      isValidName (List.replicate 256 'a') = false) ∧
    (1 ≤ ("ok".toList : GoStr).length ∧ ("ok".toList : GoStr).length ≤ 255 ∧
      isValidName "ok".toList = true) :=
  ⟨⟨by rw [List.length_replicate]; norm_num,
      isValidName_spec.2.1 _ (by rw [List.length_replicate]; norm_num)⟩,
    ⟨by decide, by decide,
      isValidName_spec.2.2.2.2 _ (by decide) (by decide) (by decide)⟩⟩

/-- C3 (counterexample): for the history file
`"a\nb\nc\nd\ne\n\nf\n"`, which contains 6 non-empty lines, `view` shows
only 4 lines (`c`, `d`, `e`, `f`): the window is the last 5 raw lines —
including the empty line between `e` and `f` — and empty lines inside the
window are skipped, so fewer than 5 non-empty lines are shown even though
at least 5 exist. -/
theorem viewRecent_five_cex :
    ((splitOnCh '\n' (trimSpaceGo "a\nb\nc\nd\ne\n\nf\n".toList)).filter
        (fun l => l ≠ [])).length = 6 ∧
      viewRecent "a\nb\nc\nd\ne\n\nf\n".toList
        = some ["c".toList, "d".toList, "e".toList, "f".toList] ∧
      (["c".toList, "d".toList, "e".toList, "f".toList] : List GoStr).length
        = 4 := by
  refine ⟨by decide, by decide, by decide⟩

/-- C3 (amended): for every existing workspace, `view` shows the non-empty
lines among the last 5 raw lines of the whitespace-trimmed history, in
original order: the result is a sublist of the lines of the trimmed
history, at
most 5 lines long, and has exactly 5 lines precisely when the trimmed
history has at least 5 lines and the last 5 of them are all non-empty
(empty lines interleaved among the most recent entries reduce the count
below 5). -/
theorem window_filter_spec (L : List GoStr) :
    ((L.drop (L.length - 5)).filter (fun l => l ≠ [])).length ≤ 5 ∧
    ((L.drop (L.length - 5)).filter (fun l => l ≠ [])).Sublist L ∧
    (((L.drop (L.length - 5)).filter (fun l => l ≠ [])).length = 5 ↔
      5 ≤ L.length ∧ ∀ l ∈ L.drop (L.length - 5), l ≠ []) := by
  have hWlen : (L.drop (L.length - 5)).length = L.length - (L.length - 5) :=
    List.length_drop _ _
  have hfle : ((L.drop (L.length - 5)).filter (fun l => l ≠ [])).length
      ≤ (L.drop (L.length - 5)).length := List.length_filter_le _ _
  refine ⟨by omega, (List.filter_sublist _).trans (List.drop_sublist _ _),
    ?_, ?_⟩
  · intro h5
    refine ⟨by omega, fun l hl => ?_⟩
    have hW5 : ((L.drop (L.length - 5)).filter (fun l => l ≠ [])).length
        = (L.drop (L.length - 5)).length := by omega
    exact of_decide_eq_true (List.filter_length_eq_length.mp hW5 l hl)
  · rintro ⟨h5L, hall⟩
    have heq : ((L.drop (L.length - 5)).filter (fun l => l ≠ [])).length
        = (L.drop (L.length - 5)).length :=
      List.filter_length_eq_length.mpr
        (fun a ha => decide_eq_true (hall a ha))
    omega

theorem viewRecent_last5_filtered (content : GoStr) (r : List GoStr)
    (h : viewRecent content = some r) :
    r = printedLines ((splitOnCh '\n' (trimSpaceGo content)).drop
        ((splitOnCh '\n' (trimSpaceGo content)).length - 5)) ∧
    r.length ≤ 5 ∧
    r.Sublist (splitOnCh '\n' (trimSpaceGo content)) ∧
    (r.length = 5 ↔
      5 ≤ (splitOnCh '\n' (trimSpaceGo content)).length ∧
      ∀ l ∈ (splitOnCh '\n' (trimSpaceGo content)).drop
          ((splitOnCh '\n' (trimSpaceGo content)).length - 5), l ≠ []) := by
  simp only [viewRecent] at h
  split at h
  case isFalse => exact absurd h (by simp)
  case isTrue hcond =>
  have hr := Option.some.inj h
  subst hr
  obtain ⟨h1, h2, h3⟩ := window_filter_spec (splitOnCh '\n' (trimSpaceGo content))
  exact ⟨rfl, h1, h2, h3⟩

/-- C3 (witness): a trimmed history of two non-empty lines shows both, in
order, and fewer than 5. -/
theorem viewRecent_last5_filtered_witness :
    viewRecent "a\nb\n".toList = some ["a".toList, "b".toList] ∧
      (["a".toList, "b".toList] : List GoStr).length ≤ 5 :=
  ⟨by decide,
    (viewRecent_last5_filtered "a\nb\n".toList ["a".toList, "b".toList]
      (by decide)).2.1⟩

/-- C4 (counterexample): for the history file `"a\nb\nc\n\n"` with
requested count 2, the spec-described procedure (drop exactly one trailing
empty artifact and nothing else, take the last 2 lines) yields
`["c", ""]` — printing only `c` — while the code trims all trailing blank
lines before splitting and returns the window `["b", "c"]`, printing both
`b` and `c`; the two disagree even in the non-empty lines displayed. -/
theorem handleHistory_trailing_cex :
    specHistoryTail "a\nb\nc\n\n".toList 2 = ["c".toList, []] ∧
      handleHistory "a\nb\nc\n\n".toList 2 = .window ["b".toList, "c".toList] ∧
      printedLines ["c".toList, []] ≠ printedLines ["b".toList, "c".toList] := by
  refine ⟨by decide, by decide, by decide⟩

/-- C4 (amended): for every existing workspace and every non-negative
requested count `n` (defaulting to 20 when unspecified), `history` strips
all leading and trailing whitespace from the file — thus removing leading
empty lines and any number of trailing blank lines, not exactly one
trailing artifact — splits the remainder on newlines, and returns the last
`n` of those lines in original order (its window has `min len n` lines, and
is the whole line list when there are fewer than `n` lines); an entirely
empty (zero-byte) history file yields the explicit no-history signal.
(The requested count and the line count are int64 values in Go, whence the
two range side conditions; within them the int64 subtraction `len - n`
cannot wrap.) -/
theorem handleHistory_window_tail (content : GoStr) (n : Int) (hn : 0 ≤ n)
    (hn64 : n ≤ 9223372036854775807)
    (hcnt : ((splitOnCh '\n' (trimSpaceGo content)).length : Int)
      ≤ 9223372036854775807) :
    (content = [] → handleHistory content n = .noHistory) ∧
    (content ≠ [] →
      handleHistory content n
        = .window ((splitOnCh '\n' (trimSpaceGo content)).drop
            ((splitOnCh '\n' (trimSpaceGo content)).length - n.toNat)) ∧
      ((splitOnCh '\n' (trimSpaceGo content)).drop
          ((splitOnCh '\n' (trimSpaceGo content)).length - n.toNat)).length
        = min (splitOnCh '\n' (trimSpaceGo content)).length n.toNat ∧
      ((splitOnCh '\n' (trimSpaceGo content)).length ≤ n.toNat →
        (splitOnCh '\n' (trimSpaceGo content)).drop
            ((splitOnCh '\n' (trimSpaceGo content)).length - n.toNat)
          = splitOnCh '\n' (trimSpaceGo content))) ∧
    resolveCount none = 20 := by
  refine ⟨fun hc => by simp [handleHistory, hc], fun hc => ?_, rfl⟩
  have hnt : ((n.toNat : Int)) = n := Int.toNat_of_nonneg hn
  have h0 : (0 : Int) ≤ ((splitOnCh '\n' (trimSpaceGo content)).length : Int) :=
    Int.natCast_nonneg _
  refine ⟨?_, ?_, ?_⟩
  · simp only [handleHistory, if_neg hc]
    rw [show wrap64 (((splitOnCh '\n' (trimSpaceGo content)).length : Int) - n)
        = ((splitOnCh '\n' (trimSpaceGo content)).length : Int) - n from by
      unfold wrap64
      omega]
    by_cases hlt : ((splitOnCh '\n' (trimSpaceGo content)).length : Int) - n < 0
    · rw [if_pos hlt, if_pos h0]
      have hz : (splitOnCh '\n' (trimSpaceGo content)).length - n.toNat = 0 := by
        omega
      rw [hz]
      rfl
    · rw [if_neg hlt,
        if_pos (by omega :
          ((splitOnCh '\n' (trimSpaceGo content)).length : Int) - n
            ≤ ((splitOnCh '\n' (trimSpaceGo content)).length : Int))]
      have ht : (((splitOnCh '\n' (trimSpaceGo content)).length : Int) - n).toNat
          = (splitOnCh '\n' (trimSpaceGo content)).length - n.toNat := by
        omega
      rw [ht]
  · rw [List.length_drop]
    omega
  · intro hle
    rw [Nat.sub_eq_zero_of_le hle, List.drop_zero]

/-- C4 (witness): a history of three lines with requested count 5 returns
all three lines in original order. -/
theorem handleHistory_window_tail_witness :
    (0 : Int) ≤ 5 ∧ ("a\nb\nc\n".toList : GoStr) ≠ [] ∧
      handleHistory "a\nb\nc\n".toList 5
        = .window ["a".toList, "b".toList, "c".toList] := by
  refine ⟨by decide, by decide, ?_⟩
  have h := ((handleHistory_window_tail "a\nb\nc\n".toList 5
    (by decide) (by decide) (by decide)).2.1 (by decide)).1
  rw [h]
  decide

end Bashlog



